import Mathlib

/-!
Shallow embedding of the URL-to-media-resolution pipeline of `instagram.py`
(repository `JakubTuta/downloader`), together with proofs about it.

External effects are reified:
* the primary metadata provider (`instaloader.Post.from_shortcode`) is an
  oracle `PrimaryOracle` mapping a shortcode to either a post-metadata object
  or the string form of a raised exception;
* the fallback HTTP GET (`requests.get(...).json()`) is an oracle
  `HttpOracle` mapping a URL to either a parsed JSON body or the string form
  of a raised exception;
* functions that may perform the fallback GET additionally return the list of
  URLs they actually requested, so that "a request was issued to `u`" is an
  observable fact of the model.
-/

namespace Instagram

deriving instance DecidableEq for Except

/-- One entry of a node's `display_resources` list: a resolution variant
`{src, config_width, config_height}`. -/
structure DisplayResource where
  src : String
  config_width : Int
  config_height : Int
deriving DecidableEq

/-- The node-level fields read by `_extract_responses_from_node`:
`display_resources`, the optional `video_url`, and the truthiness of
`is_video`. -/
structure Node where
  display_resources : List DisplayResource
  video_url : Option String
  is_video : Bool
deriving DecidableEq

/-- The `type` field of a `Response` (`typing.Literal["image", "video"]`). -/
inductive MediaType where
  | image
  | video
deriving DecidableEq

/-- The pydantic `Response` model of `instagram.py`. -/
structure Response where
  preview : String
  type : MediaType
  url : String
  width : Int
  height : Int
deriving DecidableEq

/-- A post-metadata object as consumed by `_process_post_data`: its own
node-level fields, the optional `edge_sidecar_to_children.edges` list (each
edge's `node`), and the optional `owner.username`. -/
structure PostData where
  node : Node
  edge_sidecar_to_children : Option (List Node)
  owner_username : Option String
deriving DecidableEq

/-- The result dictionaries built by the download functions: `status`,
`message`, an optional `username` key, and `data`. -/
structure Result where
  status : String
  message : String
  username : Option String
  data : List Response
deriving DecidableEq

/-- The `data` member of a fallback GraphQL JSON body: presence of the keys
`shortcode_media` and `xdt_shortcode_media`. -/
structure GraphQlData where
  shortcode_media : Option PostData
  xdt_shortcode_media : Option PostData
deriving DecidableEq

/-- A parsed fallback GraphQL JSON body: presence of the top-level `data`
key. -/
structure GraphQlResponse where
  data? : Option GraphQlData
deriving DecidableEq

/-- The primary metadata provider: shortcode to post metadata, or the string
form of a raised exception. -/
abbrev PrimaryOracle := String → Except String PostData

/-- The fallback HTTP world: URL to parsed JSON body, or the string form of a
raised exception (network failure, bad JSON, ...). -/
abbrev HttpOracle := String → Except String GraphQlResponse

/-! ### Regular-expression machinery

The three `re.search` calls of `instagram.py` are implemented directly:
a matcher is run at every position from the left, and the first position
where it succeeds wins (Python's leftmost-match rule). -/

/-- Match a literal character list at the front of the input, returning the
remainder. -/
def dropLit : List Char → List Char → Option (List Char)
  | [], cs => some cs
  | _ :: _, [] => none
  | l :: ls, c :: cs => if c = l then dropLit ls cs else none

/-- Leftmost search: run the matcher at each position from the left and
return its first success. -/
def reSearch (f : List Char → Option String) : List Char → Option String
  | [] => f []
  | c :: cs =>
    match f (c :: cs) with
    | some r => some r
    | none => reSearch f cs

/-- The literal `instagram`. -/
def igChars : List Char := ['i', 'n', 's', 't', 'a', 'g', 'r', 'a', 'm']

/-- The literal `com/`. -/
def comSlashChars : List Char := ['c', 'o', 'm', '/']

/-- Match `instagram.com/` where `.` is the regex wildcard (any character
except a newline), returning the remainder. -/
def dropIgCom (cs : List Char) : Option (List Char) :=
  match dropLit igChars cs with
  | none => none
  | some rest =>
    match rest with
    | [] => none
    | c :: rest2 => if c = Char.ofNat 10 then none else dropLit comSlashChars rest2

/-- A character matched by `[^/?]`. -/
def isSegChar (c : Char) : Bool := !(c == '/' || c == '?')

/-- One step of `re.search(r"instagram.com/(?:p|reel)/([^/?]+)", url)`:
try the pattern anchored at the given position and return the capture
group. -/
def matchShortcodeAt (cs : List Char) : Option String :=
  match dropIgCom cs with
  | none => none
  | some r =>
    match dropLit ['p', '/'] r with
    | some r2 =>
      let seg := r2.takeWhile isSegChar
      if seg = [] then none else some (String.mk seg)
    | none =>
      match dropLit ['r', 'e', 'e', 'l', '/'] r with
      | some r2 =>
        let seg := r2.takeWhile isSegChar
        if seg = [] then none else some (String.mk seg)
      | none => none

/-- `re.search(r"instagram.com/(?:p|reel)/([^/?]+)", url)`, returning the
capture group of the leftmost match. -/
def searchShortcode (url : String) : Option String :=
  reSearch matchShortcodeAt url.data

/-- `extract_shortcode`: the capture of the post/reel pattern, or the
`ValueError` message. -/
def extract_shortcode (url : String) : Except String String :=
  match searchShortcode url with
  | some sc => Except.ok sc
  | none => Except.error "Could not extract shortcode from URL"

/-- One step of `re.search(r"instagram.com/([^/?]+)", parsed_url)` (the
profile-branch test of `download_instagram_content`). -/
def matchUserSegAt (cs : List Char) : Option String :=
  match dropIgCom cs with
  | none => none
  | some r =>
    let seg := r.takeWhile isSegChar
    if seg = [] then none else some (String.mk seg)

/-- `re.search(r"instagram.com/([^/?]+)", parsed_url)`. -/
def searchUserSeg (url : String) : Option String :=
  reSearch matchUserSegAt url.data

/-- The literal `https://`. -/
def httpsChars : List Char := ['h', 't', 't', 'p', 's', ':', '/', '/']

/-- The literal `graphql/query`. -/
def gqChars : List Char := ['g', 'r', 'a', 'p', 'h', 'q', 'l', '/', 'q', 'u', 'e', 'r', 'y']

/-- A character matched by `[^\"'\s]`: anything but a double quote, a single
quote, or (ASCII) whitespace. -/
def isUrlChar (c : Char) : Bool :=
  !(c == Char.ofNat 34 || c == Char.ofNat 39 || c == Char.ofNat 32 ||
    c == Char.ofNat 9 || c == Char.ofNat 10 || c == Char.ofNat 13 ||
    c == Char.ofNat 11 || c == Char.ofNat 12)

/-- Does `graphql/query` occur in the run at an offset of at least one, with
at least one further character after it?  This is exactly the condition for
`[^\"'\s]+graphql/query[^\"'\s]+` to split a run of url-characters. -/
def hasGqAfter : List Char → Bool
  | [] => false
  | _ :: rest => (gqChars.isPrefixOf rest && decide (gqChars.length < rest.length)) || hasGqAfter rest

/-- One step of `re.search(r"(https://[^\"'\s]+graphql/query[^\"'\s]+)", s)`:
after `https://`, the two greedy `[^\"'\s]+` pieces together consume the whole
maximal run of url-characters, provided `graphql/query` occurs inside it with
at least one url-character on each side. -/
def matchGraphqlAt (cs : List Char) : Option String :=
  match dropLit httpsChars cs with
  | none => none
  | some rest =>
    let run := rest.takeWhile isUrlChar
    if hasGqAfter run then some (String.mk (httpsChars ++ run)) else none

/-- `re.search(r"(https://[^\"'\s]+graphql/query[^\"'\s]+)", error_str)`:
the embedded fallback endpoint, if any. -/
def searchGraphqlUrl (s : String) : Option String :=
  reSearch matchGraphqlAt s.data

/-- Python's substring test `needle in hay` on character lists. -/
def containsL (needle : List Char) : List Char → Bool
  | [] => needle.isEmpty
  | c :: cs => needle.isPrefixOf (c :: cs) || containsL needle cs

/-- Python's substring test `needle in hay` on strings. -/
def strContains (needle hay : String) : Bool :=
  containsL needle.data hay.data

/-- `parse_url`: `url.split("?")[0]`, i.e. everything before the first
`?`. -/
def parse_url (url : String) : String :=
  String.mk (url.data.takeWhile (fun c => !(c == '?')))

/-! ### The normalizer and the resolvers -/

/-- Python's `min(display_resources, key=lambda x: x["config_height"])` run
over `x :: xs`: left-to-right scan keeping the current element unless a
strictly smaller key appears (so ties keep the first occurrence). -/
def minByHeight (x : DisplayResource) (xs : List DisplayResource) : DisplayResource :=
  xs.foldl (fun acc y => if y.config_height < acc.config_height then y else acc) x

/-- Python's `max(display_resources, key=lambda x: x["config_height"])` run
over `x :: xs`: left-to-right scan keeping the current element unless a
strictly larger key appears (so ties keep the first occurrence). -/
def maxByHeight (x : DisplayResource) (xs : List DisplayResource) : DisplayResource :=
  xs.foldl (fun acc y => if acc.config_height < y.config_height then y else acc) x

/-- `_extract_responses_from_node`: on a non-empty `display_resources` list,
one `Response` built from the minimum-height variant (`preview`), the
maximum-height variant (`url` default, `width`, `height`), `video_url`
(`url` when present) and `is_video` (`type`); otherwise no `Response`. -/
def extract_responses_from_node (node : Node) : List Response :=
  match node.display_resources with
  | [] => []
  | x :: xs =>
    let lo := minByHeight x xs
    let hi := maxByHeight x xs
    [{ preview := lo.src
       type := if node.is_video then MediaType.video else MediaType.image
       url := node.video_url.getD hi.src
       width := hi.config_width
       height := hi.config_height }]

/-- `_process_post_data`: expand `edge_sidecar_to_children.edges` (or the
object itself) through the normalizer, read `owner.username` with default
`"unknown"`, and build the success envelope. -/
def process_post_data (post_data : PostData) (shortcode : String) : Result :=
  let posts : List Node :=
    match post_data.edge_sidecar_to_children with
    | some edges => edges
    | none => [post_data.node]
  let responses := posts.foldl (fun acc p => acc ++ extract_responses_from_node p) []
  let username := post_data.owner_username.getD "unknown"
  { status := "success"
    message := "Downloaded post/reel " ++ shortcode
    username := some username
    data := responses }

/-- `_fetch_via_graphql`: extract the embedded endpoint from the failure
text, re-derive the shortcode, GET the endpoint, and process
`data["data"]["shortcode_media"]` when present.  The first component is the
function's outcome (`Except.error` models a raised exception, `Except.ok
none` models `return None`); the second component lists the URLs actually
requested. -/
def fetch_via_graphql (http : HttpOracle) (url error_str : String) :
    Except String (Option Result) × List String :=
  match searchGraphqlUrl error_str with
  | none => (Except.ok none, [])
  | some graphql_url =>
    match extract_shortcode url with
    | Except.error e => (Except.error e, [])
    | Except.ok shortcode =>
      match http graphql_url with
      | Except.error e => (Except.error e, [graphql_url])
      | Except.ok body =>
        match body.data? with
        | none => (Except.ok none, [graphql_url])
        | some d =>
          match d.shortcode_media with
          | some sm =>
            (Except.ok (some (process_post_data sm (shortcode ++ " via GraphQL"))), [graphql_url])
          | none => (Except.ok none, [graphql_url])

/-- The error dictionaries of `download_post_or_reel`, `download_stories`,
`download_profile` and `download_instagram_content`: no `username` key and an
empty `data` list. -/
def errorEnvelope (msg : String) : Result :=
  { status := "error", message := msg, username := none, data := [] }

/-- The `except` block of `download_post_or_reel`, applied to the string form
`e` of the caught exception: run the fallback when `e` contains both
`graphql/query` and `shortcode`, mapping its outcomes to envelopes. -/
def handleErr (http : HttpOracle) (url e : String) : Result × List String :=
  if strContains "graphql/query" e && strContains "shortcode" e then
    match fetch_via_graphql http url e with
    | (Except.ok (some result), log) => (result, log)
    | (Except.ok none, log) => (errorEnvelope e, log)
    | (Except.error inner, log) =>
      ({ status := "error", message := "Failed GraphQL fallback: " ++ inner,
         username := none, data := [] }, log)
  else (errorEnvelope e, [])

/-- `download_post_or_reel`: extract the shortcode, fetch the post from the
primary provider, and process it; any failure message goes through the
`except` logic of `handleErr`. -/
def download_post_or_reel (primary : PrimaryOracle) (http : HttpOracle) (url : String) :
    Result × List String :=
  match extract_shortcode url with
  | Except.error e => handleErr http url e
  | Except.ok shortcode =>
    match primary shortcode with
    | Except.error e => handleErr http url e
    | Except.ok post => (process_post_data post shortcode, [])

/-- `download_stories`: the body raises `Exception("Stories download is not
supported")` as its first statement, and the `except` block turns it into an
error envelope. -/
def download_stories (_url : String) : Result :=
  errorEnvelope "Stories download is not supported"

/-- `download_profile`: the body raises `Exception("Profile download is not
supported")` as its first statement, and the `except` block turns it into an
error envelope. -/
def download_profile (_url : String) : Result :=
  errorEnvelope "Profile download is not supported"

/-- `download_instagram_content`: strip the query string, then dispatch on
the four branches — post/reel (substring tests on the raw `url`), stories
(substring test on `parsed_url`), profile (regex test on `parsed_url`),
unsupported. -/
def download_instagram_content (primary : PrimaryOracle) (http : HttpOracle) (url : String) :
    Result × List String :=
  let parsed_url := parse_url url
  if strContains "instagram.com/p/" url || strContains "instagram.com/reel/" url then
    download_post_or_reel primary http parsed_url
  else if strContains "instagram.com/stories/" parsed_url then
    (download_stories parsed_url, [])
  else if (searchUserSeg parsed_url).isSome then
    (download_profile parsed_url, [])
  else
    (errorEnvelope "Unsupported URL format", [])

/-! ### Helper lemmas -/

lemma minByHeight_cons (x y : DisplayResource) (ys : List DisplayResource) :
    minByHeight x (y :: ys) =
      minByHeight (if y.config_height < x.config_height then y else x) ys := rfl

lemma maxByHeight_cons (x y : DisplayResource) (ys : List DisplayResource) :
    maxByHeight x (y :: ys) =
      maxByHeight (if x.config_height < y.config_height then y else x) ys := rfl

lemma minByHeight_mem (x : DisplayResource) (xs : List DisplayResource) :
    minByHeight x xs ∈ x :: xs := by
  induction xs generalizing x with
  | nil => simp [minByHeight]
  | cons y ys ih =>
    rw [minByHeight_cons]
    rcases List.mem_cons.mp (ih (if y.config_height < x.config_height then y else x)) with h | h
    · rw [h]
      split
      · exact List.mem_cons_of_mem _ (List.mem_cons_self _ _)
      · exact List.mem_cons_self _ _
    · exact List.mem_cons_of_mem _ (List.mem_cons_of_mem _ h)

lemma maxByHeight_mem (x : DisplayResource) (xs : List DisplayResource) :
    maxByHeight x xs ∈ x :: xs := by
  induction xs generalizing x with
  | nil => simp [maxByHeight]
  | cons y ys ih =>
    rw [maxByHeight_cons]
    rcases List.mem_cons.mp (ih (if x.config_height < y.config_height then y else x)) with h | h
    · rw [h]
      split
      · exact List.mem_cons_of_mem _ (List.mem_cons_self _ _)
      · exact List.mem_cons_self _ _
    · exact List.mem_cons_of_mem _ (List.mem_cons_of_mem _ h)

lemma minByHeight_le (x : DisplayResource) (xs : List DisplayResource) :
    ∀ d ∈ x :: xs, (minByHeight x xs).config_height ≤ d.config_height := by
  induction xs generalizing x with
  | nil =>
    intro d hd
    obtain rfl := List.mem_singleton.mp hd
    simp [minByHeight]
  | cons y ys ih =>
    intro d hd
    rw [minByHeight_cons]
    by_cases hc : y.config_height < x.config_height
    · rw [if_pos hc]
      rcases List.mem_cons.mp hd with h | hd'
      · rw [h]
        exact le_trans (ih y _ (List.mem_cons_self _ _)) (le_of_lt hc)
      · rcases List.mem_cons.mp hd' with h | hd''
        · rw [h]
          exact ih y _ (List.mem_cons_self _ _)
        · exact ih y _ (List.mem_cons_of_mem _ hd'')
    · rw [if_neg hc]
      rcases List.mem_cons.mp hd with h | hd'
      · rw [h]
        exact ih x _ (List.mem_cons_self _ _)
      · rcases List.mem_cons.mp hd' with h | hd''
        · rw [h]
          exact le_trans (ih x _ (List.mem_cons_self _ _)) (le_of_not_lt hc)
        · exact ih x _ (List.mem_cons_of_mem _ hd'')

lemma maxByHeight_ge (x : DisplayResource) (xs : List DisplayResource) :
    ∀ d ∈ x :: xs, d.config_height ≤ (maxByHeight x xs).config_height := by
  induction xs generalizing x with
  | nil =>
    intro d hd
    obtain rfl := List.mem_singleton.mp hd
    simp [maxByHeight]
  | cons y ys ih =>
    intro d hd
    rw [maxByHeight_cons]
    by_cases hc : x.config_height < y.config_height
    · rw [if_pos hc]
      rcases List.mem_cons.mp hd with h | hd'
      · rw [h]
        exact le_trans (le_of_lt hc) (ih y _ (List.mem_cons_self _ _))
      · rcases List.mem_cons.mp hd' with h | hd''
        · rw [h]
          exact ih y _ (List.mem_cons_self _ _)
        · exact ih y _ (List.mem_cons_of_mem _ hd'')
    · rw [if_neg hc]
      rcases List.mem_cons.mp hd with h | hd'
      · rw [h]
        exact ih x _ (List.mem_cons_self _ _)
      · rcases List.mem_cons.mp hd' with h | hd''
        · rw [h]
          exact le_trans (le_of_not_lt hc) (ih x _ (List.mem_cons_self _ _))
        · exact ih x _ (List.mem_cons_of_mem _ hd'')

lemma extract_responses_eq_of_cons (node : Node) (x : DisplayResource)
    (xs : List DisplayResource) (h : node.display_resources = x :: xs) :
    extract_responses_from_node node =
      [{ preview := (minByHeight x xs).src
         type := if node.is_video then MediaType.video else MediaType.image
         url := node.video_url.getD ((maxByHeight x xs).src)
         width := (maxByHeight x xs).config_width
         height := (maxByHeight x xs).config_height }] := by
  unfold extract_responses_from_node
  rw [h]

lemma extract_responses_eq_of_nil (node : Node) (h : node.display_resources = []) :
    extract_responses_from_node node = [] := by
  unfold extract_responses_from_node
  rw [h]

lemma extract_responses_length_one (c : Node) (h : c.display_resources ≠ []) :
    (extract_responses_from_node c).length = 1 := by
  rcases hd : c.display_resources with _ | ⟨x, xs⟩
  · exact absurd hd h
  · rw [extract_responses_eq_of_cons c x xs hd]
    rfl

lemma foldl_extend_eq (l : List Node) (acc : List Response) :
    l.foldl (fun a p => a ++ extract_responses_from_node p) acc
      = acc ++ (l.map extract_responses_from_node).flatten := by
  induction l generalizing acc with
  | nil => simp
  | cons p ps ih => simp [List.foldl_cons, ih, List.append_assoc]

lemma join_length_singletons (l : List Node)
    (h : ∀ c ∈ l, c.display_resources ≠ []) :
    ((l.map extract_responses_from_node).flatten).length = l.length := by
  induction l with
  | nil => simp
  | cons c cs ih =>
    have h1 : (extract_responses_from_node c).length = 1 :=
      extract_responses_length_one c (h c (List.mem_cons_self _ _))
    have h2 := ih (fun d hd => h d (List.mem_cons_of_mem _ hd))
    simp only [List.map_cons, List.flatten_cons, List.length_append, h1, h2, List.length_cons]
    omega

lemma process_post_data_data (pd : PostData) (sc : String) :
    (process_post_data pd sc).data =
      ((match pd.edge_sidecar_to_children with
        | some edges => edges
        | none => [pd.node]).map extract_responses_from_node).flatten := by
  have h0 : (process_post_data pd sc).data =
      (match pd.edge_sidecar_to_children with
        | some edges => edges
        | none => [pd.node]).foldl (fun a p => a ++ extract_responses_from_node p) [] := rfl
  rw [h0, foldl_extend_eq]
  simp

/-! ### Lemmas about the leftmost regex scan -/

lemma reSearch_cons_of_none (f : List Char → Option String) (c : Char) (cs : List Char)
    (h : f (c :: cs) = none) : reSearch f (c :: cs) = reSearch f cs := by
  simp [reSearch, h]

lemma reSearch_cons_of_some (f : List Char → Option String) (c : Char) (cs : List Char)
    (r : String) (h : f (c :: cs) = some r) : reSearch f (c :: cs) = some r := by
  simp [reSearch, h]

lemma matchShortcodeAt_cons_ne (c : Char) (cs : List Char) (hc : ¬ c = 'i') :
    matchShortcodeAt (c :: cs) = none := by
  simp [matchShortcodeAt, dropIgCom, igChars, dropLit, hc]

lemma takeWhile_append_of_all (p : Char → Bool) (l₁ l₂ : List Char)
    (h : ∀ c ∈ l₁, p c = true) :
    (l₁ ++ l₂).takeWhile p = l₁ ++ l₂.takeWhile p := by
  induction l₁ with
  | nil => simp
  | cons c cs ih =>
    have hc := h c (List.mem_cons_self _ _)
    have ih' := ih (fun d hd => h d (List.mem_cons_of_mem _ hd))
    simp [List.takeWhile_cons, hc, ih']

lemma matchShortcodeAt_hit_p (id rest : List Char) (hid : ¬ id = [])
    (hchars : ∀ c ∈ id, isSegChar c = true)
    (htw : rest.takeWhile isSegChar = []) :
    matchShortcodeAt
      (['i', 'n', 's', 't', 'a', 'g', 'r', 'a', 'm', '.', 'c', 'o', 'm', '/', 'p', '/'] ++
        (id ++ rest)) = some (String.mk id) := by
  have h1 : (id ++ rest).takeWhile isSegChar = id := by
    rw [takeWhile_append_of_all _ _ _ hchars, htw, List.append_nil]
  show (if (id ++ rest).takeWhile isSegChar = [] then none
        else some (String.mk ((id ++ rest).takeWhile isSegChar))) = some (String.mk id)
  rw [h1, if_neg hid]

lemma matchShortcodeAt_hit_reel (id rest : List Char) (hid : ¬ id = [])
    (hchars : ∀ c ∈ id, isSegChar c = true)
    (htw : rest.takeWhile isSegChar = []) :
    matchShortcodeAt
      (['i', 'n', 's', 't', 'a', 'g', 'r', 'a', 'm', '.', 'c', 'o', 'm', '/', 'r', 'e', 'e', 'l', '/'] ++
        (id ++ rest)) = some (String.mk id) := by
  have h1 : (id ++ rest).takeWhile isSegChar = id := by
    rw [takeWhile_append_of_all _ _ _ hchars, htw, List.append_nil]
  show (if (id ++ rest).takeWhile isSegChar = [] then none
        else some (String.mk ((id ++ rest).takeWhile isSegChar))) = some (String.mk id)
  rw [h1, if_neg hid]

/-! ### Shape of every produced envelope -/

lemma fetch_ok_some_shape (http : HttpOracle) (url e : String) (r : Result) (log : List String)
    (h : fetch_via_graphql http url e = (Except.ok (some r), log)) :
    r.status = "success" ∧ ∃ u, r.username = some u := by
  rcases hs : searchGraphqlUrl e with _ | gu
  · simp [fetch_via_graphql, hs] at h
  · rcases hx : extract_shortcode url with e2 | sc
    · simp [fetch_via_graphql, hs, hx] at h
    · rcases hh : http gu with e2 | body
      · simp [fetch_via_graphql, hs, hx, hh] at h
      · rcases hd : body.data? with _ | d
        · simp [fetch_via_graphql, hs, hx, hh, hd] at h
        · rcases hm : d.shortcode_media with _ | sm
          · simp [fetch_via_graphql, hs, hx, hh, hd, hm] at h
          · simp only [fetch_via_graphql, hs, hx, hh, hd, hm, Prod.mk.injEq] at h
            obtain ⟨h1, h2⟩ := h
            have h3 : process_post_data sm (sc ++ " via GraphQL") = r := by
              simpa using h1
            rw [← h3]
            exact ⟨rfl, _, rfl⟩

lemma handleErr_eq_no_gate (http : HttpOracle) (url e : String)
    (hg : ¬ ((strContains "graphql/query" e && strContains "shortcode" e) = true)) :
    handleErr http url e = (errorEnvelope e, []) := by
  unfold handleErr
  rw [if_neg hg]

lemma handleErr_eq_inner_err (http : HttpOracle) (url e inner : String) (log : List String)
    (hg : (strContains "graphql/query" e && strContains "shortcode" e) = true)
    (hf : fetch_via_graphql http url e = (Except.error inner, log)) :
    handleErr http url e =
      ({ status := "error", message := "Failed GraphQL fallback: " ++ inner,
         username := none, data := [] }, log) := by
  unfold handleErr
  rw [if_pos hg, hf]

lemma handleErr_eq_no_result (http : HttpOracle) (url e : String) (log : List String)
    (hg : (strContains "graphql/query" e && strContains "shortcode" e) = true)
    (hf : fetch_via_graphql http url e = (Except.ok none, log)) :
    handleErr http url e = (errorEnvelope e, log) := by
  unfold handleErr
  rw [if_pos hg, hf]

lemma handleErr_eq_result (http : HttpOracle) (url e : String) (r : Result) (log : List String)
    (hg : (strContains "graphql/query" e && strContains "shortcode" e) = true)
    (hf : fetch_via_graphql http url e = (Except.ok (some r), log)) :
    handleErr http url e = (r, log) := by
  unfold handleErr
  rw [if_pos hg, hf]

lemma handleErr_shape (http : HttpOracle) (url e : String) :
    ((handleErr http url e).fst.status = "error" ∧ (handleErr http url e).fst.username = none ∧
      (handleErr http url e).fst.data = []) ∨
    ((handleErr http url e).fst.status = "success" ∧
      ∃ u, (handleErr http url e).fst.username = some u) := by
  by_cases hg : (strContains "graphql/query" e && strContains "shortcode" e) = true
  · rcases hf : fetch_via_graphql http url e with ⟨inner | o, log⟩
    · rw [handleErr_eq_inner_err http url e inner log hg hf]
      exact Or.inl ⟨rfl, rfl, rfl⟩
    · rcases o with _ | r
      · rw [handleErr_eq_no_result http url e log hg hf]
        exact Or.inl ⟨rfl, rfl, rfl⟩
      · rw [handleErr_eq_result http url e r log hg hf]
        exact Or.inr (fetch_ok_some_shape http url e r log hf)
  · rw [handleErr_eq_no_gate http url e hg]
    exact Or.inl ⟨rfl, rfl, rfl⟩

lemma download_post_or_reel_eq_exerr (primary : PrimaryOracle) (http : HttpOracle)
    (url e : String) (hx : extract_shortcode url = Except.error e) :
    download_post_or_reel primary http url = handleErr http url e := by
  simp only [download_post_or_reel, hx]

lemma download_post_or_reel_eq_prerr (primary : PrimaryOracle) (http : HttpOracle)
    (url sc e : String) (hx : extract_shortcode url = Except.ok sc)
    (hp : primary sc = Except.error e) :
    download_post_or_reel primary http url = handleErr http url e := by
  simp only [download_post_or_reel, hx, hp]

lemma download_post_or_reel_eq_ok (primary : PrimaryOracle) (http : HttpOracle)
    (url sc : String) (post : PostData) (hx : extract_shortcode url = Except.ok sc)
    (hp : primary sc = Except.ok post) :
    download_post_or_reel primary http url = (process_post_data post sc, []) := by
  simp only [download_post_or_reel, hx, hp]

lemma download_post_or_reel_shape (primary : PrimaryOracle) (http : HttpOracle) (url : String) :
    ((download_post_or_reel primary http url).fst.status = "error" ∧
      (download_post_or_reel primary http url).fst.username = none ∧
      (download_post_or_reel primary http url).fst.data = []) ∨
    ((download_post_or_reel primary http url).fst.status = "success" ∧
      ∃ u, (download_post_or_reel primary http url).fst.username = some u) := by
  rcases hx : extract_shortcode url with e | sc
  · rw [download_post_or_reel_eq_exerr primary http url e hx]
    exact handleErr_shape http url e
  · rcases hp : primary sc with e | post
    · rw [download_post_or_reel_eq_prerr primary http url sc e hx hp]
      exact handleErr_shape http url e
    · rw [download_post_or_reel_eq_ok primary http url sc post hx hp]
      exact Or.inr ⟨rfl, _, rfl⟩

lemma download_instagram_content_shape (primary : PrimaryOracle) (http : HttpOracle)
    (url : String) :
    ((download_instagram_content primary http url).fst.status = "error" ∧
      (download_instagram_content primary http url).fst.username = none ∧
      (download_instagram_content primary http url).fst.data = []) ∨
    ((download_instagram_content primary http url).fst.status = "success" ∧
      ∃ u, (download_instagram_content primary http url).fst.username = some u) := by
  simp only [download_instagram_content]
  by_cases h1 : (strContains "instagram.com/p/" url || strContains "instagram.com/reel/" url) = true
  · rw [if_pos h1]
    exact download_post_or_reel_shape primary http (parse_url url)
  · rw [if_neg h1]
    by_cases h2 : strContains "instagram.com/stories/" (parse_url url) = true
    · rw [if_pos h2]
      exact Or.inl ⟨rfl, rfl, rfl⟩
    · rw [if_neg h2]
      by_cases h3 : (searchUserSeg (parse_url url)).isSome = true
      · rw [if_pos h3]
        exact Or.inl ⟨rfl, rfl, rfl⟩
      · rw [if_neg h3]
        exact Or.inl ⟨rfl, rfl, rfl⟩

lemma extract_shortcode_error_eq (url e : String)
    (h : extract_shortcode url = Except.error e) :
    e = "Could not extract shortcode from URL" := by
  unfold extract_shortcode at h
  rcases hs : searchShortcode url with _ | sc <;> rw [hs] at h
  · exact (Except.error.inj h).symm
  · exact absurd h (by simp)

lemma fetch_snd_eq (http : HttpOracle) (url e gu sc : String)
    (hs : searchGraphqlUrl e = some gu) (hx : extract_shortcode url = Except.ok sc) :
    (fetch_via_graphql http url e).snd = [gu] := by
  rcases hh : http gu with e2 | body
  · simp [fetch_via_graphql, hs, hx, hh]
  · rcases hd : body.data? with _ | d
    · simp [fetch_via_graphql, hs, hx, hh, hd]
    · rcases hm : d.shortcode_media with _ | sm <;>
        simp [fetch_via_graphql, hs, hx, hh, hd, hm]

/-! ### Sample data -/

/-- The node of the spec's worked example: variants
`[(100,100,"a"),(400,400,"b"),(800,800,"c")]`, no video flag. -/
def specNode3 : Node :=
  { display_resources :=
      [{ src := "a", config_width := 100, config_height := 100 },
       { src := "b", config_width := 400, config_height := 400 },
       { src := "c", config_width := 800, config_height := 800 }]
    video_url := none
    is_video := false }

/-- The spec's worked example with `is_video=true` and `video_url="v.mp4"`. -/
def videoNode3 : Node :=
  { display_resources :=
      [{ src := "a", config_width := 100, config_height := 100 },
       { src := "b", config_width := 400, config_height := 400 },
       { src := "c", config_width := 800, config_height := 800 }]
    video_url := some "v.mp4"
    is_video := true }

/-- A carousel metadata object with three children, each carrying variants. -/
def carouselPost : PostData :=
  { node := { display_resources := [], video_url := none, is_video := false }
    edge_sidecar_to_children :=
      some [specNode3, videoNode3,
            { display_resources := [{ src := "z", config_width := 50, config_height := 50 }]
              video_url := none
              is_video := false }]
    owner_username := some "bob" }

/-! ### Claims -/

/-- Claim C3: for every raw node with a non-empty resolution-variant list the
normalizer returns exactly one descriptor whose `preview` is the
minimum-height variant's source URL, whose `width` and `height` come from the
maximum-height variant, whose `url` is the node's explicit video URL if
present and otherwise the maximum-height variant's source URL, and whose kind
is `video` exactly when the node's video flag is true; for every node with an
empty variant list it returns zero descriptors. -/
theorem C3_theorem (node : Node) :
    (node.display_resources = [] → extract_responses_from_node node = []) ∧
    (node.display_resources ≠ [] →
      ∃ r lo hi, extract_responses_from_node node = [r] ∧
        lo ∈ node.display_resources ∧
        (∀ d ∈ node.display_resources, lo.config_height ≤ d.config_height) ∧
        hi ∈ node.display_resources ∧
        (∀ d ∈ node.display_resources, d.config_height ≤ hi.config_height) ∧
        r.preview = lo.src ∧
        r.width = hi.config_width ∧
        r.height = hi.config_height ∧
        r.url = node.video_url.getD hi.src ∧
        (r.type = MediaType.video ↔ node.is_video = true)) := by
  constructor
  · exact extract_responses_eq_of_nil node
  · intro h
    rcases hd : node.display_resources with _ | ⟨x, xs⟩
    · exact absurd hd h
    · refine ⟨_, minByHeight x xs, maxByHeight x xs,
        extract_responses_eq_of_cons node x xs hd, minByHeight_mem x xs, minByHeight_le x xs,
        maxByHeight_mem x xs, maxByHeight_ge x xs, rfl, rfl, rfl, rfl, ?_⟩
      cases hv : node.is_video <;> simp

/-- Witness for C3 at the spec's worked example node. -/
theorem C3_witness :
    ∃ r lo hi, extract_responses_from_node specNode3 = [r] ∧
      lo ∈ specNode3.display_resources ∧
      (∀ d ∈ specNode3.display_resources, lo.config_height ≤ d.config_height) ∧
      hi ∈ specNode3.display_resources ∧
      (∀ d ∈ specNode3.display_resources, d.config_height ≤ hi.config_height) ∧
      r.preview = lo.src ∧
      r.width = hi.config_width ∧
      r.height = hi.config_height ∧
      r.url = specNode3.video_url.getD hi.src ∧
      (r.type = MediaType.video ↔ specNode3.is_video = true) :=
  (C3_theorem specNode3).2 (by decide)

/-- Claim C5 as stated fails: a node whose video flag is true but which
carries no explicit `video_url` still yields a `video` descriptor, and its
`url` is the maximum-height image variant's source, not a video stream
URL. -/
theorem C5_counterexample :
    ¬ (∀ (node : Node), ∀ r ∈ extract_responses_from_node node,
        r.type = MediaType.video → ∃ v, node.video_url = some v ∧ r.url = v) := by
  intro hclaim
  rcases hclaim
      { display_resources := [{ src := "a", config_width := 100, config_height := 100 }],
        video_url := none, is_video := true }
      { preview := "a", type := MediaType.video, url := "a", width := 100, height := 100 }
      (by decide) rfl with ⟨v, hv, _⟩
  exact Option.noConfusion hv

/-- Claim C5 amended: a descriptor's kind is `video` exactly when the node's
video flag is true; its `url` is the node's explicit video URL whenever one
is present, and when the node carries no explicit video URL the `url` falls
back to the maximum-height image variant's source (even for `video`
descriptors). -/
theorem C5_amended_theorem (node : Node) (x : DisplayResource) (xs : List DisplayResource)
    (hd : node.display_resources = x :: xs) (r : Response)
    (hr : r ∈ extract_responses_from_node node) :
    (r.type = MediaType.video ↔ node.is_video = true) ∧
    (∀ v, node.video_url = some v → r.url = v) ∧
    (node.video_url = none →
      r.url = (maxByHeight x xs).src ∧
      maxByHeight x xs ∈ node.display_resources ∧
      ∀ d ∈ node.display_resources, d.config_height ≤ (maxByHeight x xs).config_height) := by
  rw [extract_responses_eq_of_cons node x xs hd] at hr
  obtain hreq := List.mem_singleton.mp hr
  subst hreq
  refine ⟨?_, ?_, ?_⟩
  · cases hv : node.is_video <;> simp
  · intro v hv
    simp [hv]
  · intro hv
    refine ⟨by simp [hv], ?_, ?_⟩
    · rw [hd]
      exact maxByHeight_mem x xs
    · rw [hd]
      exact maxByHeight_ge x xs

/-- Witness for the amended C5 at the spec's video example node. -/
theorem C5_witness :
    (((⟨"a", MediaType.video, "v.mp4", 800, 800⟩ : Response).type = MediaType.video ↔
        videoNode3.is_video = true) ∧
      (∀ v, videoNode3.video_url = some v →
        (⟨"a", MediaType.video, "v.mp4", 800, 800⟩ : Response).url = v) ∧
      (videoNode3.video_url = none →
        (⟨"a", MediaType.video, "v.mp4", 800, 800⟩ : Response).url =
          (maxByHeight ⟨"a", 100, 100⟩ [⟨"b", 400, 400⟩, ⟨"c", 800, 800⟩]).src ∧
        maxByHeight ⟨"a", 100, 100⟩ [⟨"b", 400, 400⟩, ⟨"c", 800, 800⟩] ∈
          videoNode3.display_resources ∧
        ∀ d ∈ videoNode3.display_resources,
          d.config_height ≤
            (maxByHeight ⟨"a", 100, 100⟩ [⟨"b", 400, 400⟩, ⟨"c", 800, 800⟩]).config_height)) :=
  C5_amended_theorem videoNode3 ⟨"a", 100, 100⟩ [⟨"b", 400, 400⟩, ⟨"c", 800, 800⟩] rfl
    ⟨"a", MediaType.video, "v.mp4", 800, 800⟩ (by decide)

/-- Claim C7: a carousel metadata object yields the concatenation, in child
order, of each child's normalized descriptors — exactly N descriptors when
all N children carry variants, children without variants being skipped —
with `username` read once from the top-level `owner` sub-object (default
`"unknown"`), and an object without a carousel collection treated as a single
unit. -/
theorem C7_theorem (pd : PostData) (sc : String) :
    (process_post_data pd sc).status = "success" ∧
    (process_post_data pd sc).username = some (pd.owner_username.getD "unknown") ∧
    (∀ cs, pd.edge_sidecar_to_children = some cs →
      (process_post_data pd sc).data = (cs.map extract_responses_from_node).flatten ∧
      ((∀ c ∈ cs, c.display_resources ≠ []) →
        (process_post_data pd sc).data.length = cs.length)) ∧
    (pd.edge_sidecar_to_children = none →
      (process_post_data pd sc).data = extract_responses_from_node pd.node) := by
  refine ⟨rfl, rfl, ?_, ?_⟩
  · intro cs hcs
    have hdata : (process_post_data pd sc).data =
        (cs.map extract_responses_from_node).flatten := by
      rw [process_post_data_data pd sc, hcs]
    refine ⟨hdata, fun hall => ?_⟩
    rw [hdata]
    exact join_length_singletons cs hall
  · intro hn
    rw [process_post_data_data pd sc, hn]
    simp

/-- Witness for C7 at a three-child carousel. -/
theorem C7_witness :
    (process_post_data carouselPost "SC").status = "success" ∧
    (process_post_data carouselPost "SC").username = some "bob" ∧
    (process_post_data carouselPost "SC").data.length = 3 := by
  have h := C7_theorem carouselPost "SC"
  refine ⟨h.1, h.2.1, ?_⟩
  exact (h.2.2.1 _ rfl).2 (by decide)

lemma searchShortcode_skip_www (rest : List Char) :
    reSearch matchShortcodeAt
        (['h', 't', 't', 'p', 's', ':', '/', '/', 'w', 'w', 'w', '.'] ++ rest) =
      reSearch matchShortcodeAt rest := by
  simp only [List.cons_append, List.nil_append]
  rw [reSearch_cons_of_none _ _ _ (matchShortcodeAt_cons_ne 'h' _ (by decide))]
  rw [reSearch_cons_of_none _ _ _ (matchShortcodeAt_cons_ne 't' _ (by decide))]
  rw [reSearch_cons_of_none _ _ _ (matchShortcodeAt_cons_ne 't' _ (by decide))]
  rw [reSearch_cons_of_none _ _ _ (matchShortcodeAt_cons_ne 'p' _ (by decide))]
  rw [reSearch_cons_of_none _ _ _ (matchShortcodeAt_cons_ne 's' _ (by decide))]
  rw [reSearch_cons_of_none _ _ _ (matchShortcodeAt_cons_ne ':' _ (by decide))]
  rw [reSearch_cons_of_none _ _ _ (matchShortcodeAt_cons_ne '/' _ (by decide))]
  rw [reSearch_cons_of_none _ _ _ (matchShortcodeAt_cons_ne '/' _ (by decide))]
  rw [reSearch_cons_of_none _ _ _ (matchShortcodeAt_cons_ne 'w' _ (by decide))]
  rw [reSearch_cons_of_none _ _ _ (matchShortcodeAt_cons_ne 'w' _ (by decide))]
  rw [reSearch_cons_of_none _ _ _ (matchShortcodeAt_cons_ne 'w' _ (by decide))]
  rw [reSearch_cons_of_none _ _ _ (matchShortcodeAt_cons_ne '.' _ (by decide))]

lemma searchShortcode_p_eq (id rest : List Char) (hid : ¬ id = [])
    (hchars : ∀ c ∈ id, isSegChar c = true) (htw : rest.takeWhile isSegChar = []) :
    reSearch matchShortcodeAt
        (['h', 't', 't', 'p', 's', ':', '/', '/', 'w', 'w', 'w', '.'] ++
          (['i', 'n', 's', 't', 'a', 'g', 'r', 'a', 'm', '.', 'c', 'o', 'm', '/', 'p', '/'] ++
            (id ++ rest))) = some (String.mk id) := by
  rw [searchShortcode_skip_www]
  have h' := matchShortcodeAt_hit_p id rest hid hchars htw
  simp only [List.cons_append, List.nil_append] at h' ⊢
  exact reSearch_cons_of_some _ _ _ _ h'

lemma searchShortcode_reel_eq (id rest : List Char) (hid : ¬ id = [])
    (hchars : ∀ c ∈ id, isSegChar c = true) (htw : rest.takeWhile isSegChar = []) :
    reSearch matchShortcodeAt
        (['h', 't', 't', 'p', 's', ':', '/', '/', 'w', 'w', 'w', '.'] ++
          (['i', 'n', 's', 't', 'a', 'g', 'r', 'a', 'm', '.', 'c', 'o', 'm', '/',
            'r', 'e', 'e', 'l', '/'] ++ (id ++ rest))) = some (String.mk id) := by
  rw [searchShortcode_skip_www]
  have h' := matchShortcodeAt_hit_reel id rest hid hchars htw
  simp only [List.cons_append, List.nil_append] at h' ⊢
  exact reSearch_cons_of_some _ _ _ _ h'

/-- Claim C4 as stated fails: `extract_shortcode` has no pattern for the
percent-encoded fragment `shortcode%22%3A%22<id>%22`, so a URL carrying only
that fragment raises `ValueError` instead of returning the id. -/
theorem C4_counterexample :
    extract_shortcode
        "https://www.instagram.com/graphql/query?variables=%7B%22shortcode%22%3A%22ABC%22%7D" =
      Except.error "Could not extract shortcode from URL" ∧
    ¬ (extract_shortcode
        "https://www.instagram.com/graphql/query?variables=%7B%22shortcode%22%3A%22ABC%22%7D" =
      Except.ok "ABC") := by
  decide

/-- Claim C4 amended: `extract_shortcode` returns exactly the id for
`instagram.com/p/<id>` and `instagram.com/reel/<id>` URLs, optionally with a
query string, and fails with the `ValueError` message on every URL where the
post/reel pattern does not occur — including URLs carrying only a
percent-encoded `shortcode%22%3A%22<id>%22` fragment, for which the code has
no pattern. -/
theorem C4_amended_theorem (id tail : String) (hid : ¬ id.data = [])
    (hchars : ∀ c ∈ id.data, isSegChar c = true)
    (htail : tail.data = [] ∨ ∃ t, tail.data = '?' :: t) :
    extract_shortcode ("https://www.instagram.com/p/" ++ id ++ tail) = Except.ok id ∧
    extract_shortcode ("https://www.instagram.com/reel/" ++ id ++ tail) = Except.ok id ∧
    (∀ url : String, searchShortcode url = none →
      extract_shortcode url = Except.error "Could not extract shortcode from URL") := by
  have htw : tail.data.takeWhile isSegChar = [] := by
    rcases htail with h | ⟨t, h⟩
    · rw [h]
      rfl
    · rw [h]
      have hq : isSegChar '?' = false := by decide
      simp [List.takeWhile_cons, hq]
  refine ⟨?_, ?_, ?_⟩
  · have hdp : ("https://www.instagram.com/p/" ++ id ++ tail).data =
        ['h', 't', 't', 'p', 's', ':', '/', '/', 'w', 'w', 'w', '.'] ++
          (['i', 'n', 's', 't', 'a', 'g', 'r', 'a', 'm', '.', 'c', 'o', 'm', '/', 'p', '/'] ++
            (id.data ++ tail.data)) := by
      simp [String.data_append, List.append_assoc]
    have hsearch : searchShortcode ("https://www.instagram.com/p/" ++ id ++ tail) = some id := by
      unfold searchShortcode
      rw [hdp, searchShortcode_p_eq id.data tail.data hid hchars htw]
    unfold extract_shortcode
    rw [hsearch]
  · have hdr : ("https://www.instagram.com/reel/" ++ id ++ tail).data =
        ['h', 't', 't', 'p', 's', ':', '/', '/', 'w', 'w', 'w', '.'] ++
          (['i', 'n', 's', 't', 'a', 'g', 'r', 'a', 'm', '.', 'c', 'o', 'm', '/',
            'r', 'e', 'e', 'l', '/'] ++ (id.data ++ tail.data)) := by
      simp [String.data_append, List.append_assoc]
    have hsearch : searchShortcode ("https://www.instagram.com/reel/" ++ id ++ tail) = some id := by
      unfold searchShortcode
      rw [hdr, searchShortcode_reel_eq id.data tail.data hid hchars htw]
    unfold extract_shortcode
    rw [hsearch]
  · intro url h
    unfold extract_shortcode
    rw [h]

/-- Witness for the amended C4 at `id = "ABC"` with a query string. -/
theorem C4_witness :
    extract_shortcode ("https://www.instagram.com/p/" ++ "ABC" ++ "?igsh=1") = Except.ok "ABC" ∧
    extract_shortcode ("https://www.instagram.com/reel/" ++ "ABC" ++ "?igsh=1") =
      Except.ok "ABC" ∧
    extract_shortcode "https://www.instagram.com" =
      Except.error "Could not extract shortcode from URL" := by
  have h := C4_amended_theorem "ABC" "?igsh=1" (by decide) (by decide)
    (Or.inr ⟨"igsh=1".data, by decide⟩)
  exact ⟨h.1, h.2.1, h.2.2 _ (by decide)⟩

lemma handleErr_snd_gate (http : HttpOracle) (url e : String)
    (hg : (strContains "graphql/query" e && strContains "shortcode" e) = true) :
    (handleErr http url e).snd = (fetch_via_graphql http url e).snd := by
  rcases hf : fetch_via_graphql http url e with ⟨inner | o, log⟩
  · rw [handleErr_eq_inner_err http url e inner log hg hf]
  · rcases o with _ | r
    · rw [handleErr_eq_no_result http url e log hg hf]
    · rw [handleErr_eq_result http url e r log hg hf]

/-- Claim C1 as stated fails: a primary failure message that contains an
embedded HTTPS `graphql/query` URL but not the substring `shortcode` does not
trigger any fallback request — the code's gate also requires the substring
`shortcode` in the message.  Here the fallback oracle would even have
returned a valid post, yet no request is issued (empty request log) and the
original error is returned. -/
theorem C1_counterexample :
    (searchGraphqlUrl "https://x.test/graphql/query?y=1").isSome = true ∧
    download_post_or_reel (fun _ => Except.error "https://x.test/graphql/query?y=1")
        (fun _ => Except.ok ⟨some ⟨some ⟨⟨[⟨"a", 1, 1⟩], none, false⟩, none, some "bob"⟩, none⟩⟩)
        "https://www.instagram.com/p/ABC" =
      (errorEnvelope "https://x.test/graphql/query?y=1", []) := by
  decide

/-- Claim C1 amended: at most one fallback GET is issued, and a GET to `u` is
issued exactly when the shortcode extraction succeeds, the primary fetch
fails with a message containing both the substring `graphql/query` and the
substring `shortcode`, and the embedded-URL pattern extracts `u` (verbatim,
terminated at the first quote or whitespace character) from that message. -/
theorem C1_amended_theorem (primary : PrimaryOracle) (http : HttpOracle) (url : String) :
    ((download_post_or_reel primary http url).snd = [] ∨
      ∃ u, (download_post_or_reel primary http url).snd = [u]) ∧
    (∀ u, (download_post_or_reel primary http url).snd = [u] ↔
      ∃ sc e, extract_shortcode url = Except.ok sc ∧ primary sc = Except.error e ∧
        (strContains "graphql/query" e && strContains "shortcode" e) = true ∧
        searchGraphqlUrl e = some u) := by
  rcases hx : extract_shortcode url with e | sc
  · obtain rfl := extract_shortcode_error_eq url e hx
    rw [download_post_or_reel_eq_exerr primary http url _ hx,
      handleErr_eq_no_gate http url _ (by decide)]
    refine ⟨Or.inl rfl, fun u => ⟨fun h => absurd h (by simp), ?_⟩⟩
    rintro ⟨sc2, e2, hsc2, -, -, -⟩
    exact Except.noConfusion hsc2
  · rcases hp : primary sc with e | post
    · rw [download_post_or_reel_eq_prerr primary http url sc e hx hp]
      by_cases hg : (strContains "graphql/query" e && strContains "shortcode" e) = true
      · rcases hs : searchGraphqlUrl e with _ | gu
        · have hf : fetch_via_graphql http url e = (Except.ok none, []) := by
            unfold fetch_via_graphql
            rw [hs]
          rw [handleErr_eq_no_result http url e [] hg hf]
          refine ⟨Or.inl rfl, fun u => ⟨fun h => absurd h (by simp), ?_⟩⟩
          rintro ⟨sc2, e2, hsc2, hp2, hg2, hs2⟩
          obtain rfl : sc = sc2 := Except.ok.inj hsc2
          obtain rfl : e = e2 := Except.error.inj (hp.symm.trans hp2)
          rw [hs] at hs2
          exact Option.noConfusion hs2
        · have hh : (handleErr http url e).snd = [gu] := by
            rw [handleErr_snd_gate http url e hg]
            exact fetch_snd_eq http url e gu sc hs hx
          refine ⟨Or.inr ⟨gu, hh⟩, fun u => ⟨?_, ?_⟩⟩
          · intro hu
            obtain rfl : gu = u := by
              have h2 := hh.symm.trans hu
              simpa using h2
            exact ⟨sc, e, rfl, hp, hg, hs⟩
          · rintro ⟨sc2, e2, hsc2, hp2, hg2, hs2⟩
            obtain rfl : sc = sc2 := Except.ok.inj hsc2
            obtain rfl : e = e2 := Except.error.inj (hp.symm.trans hp2)
            rw [hs] at hs2
            obtain rfl : gu = u := Option.some.inj hs2
            exact hh
      · rw [handleErr_eq_no_gate http url e hg]
        refine ⟨Or.inl rfl, fun u => ⟨fun h => absurd h (by simp), ?_⟩⟩
        rintro ⟨sc2, e2, hsc2, hp2, hg2, -⟩
        obtain rfl : sc = sc2 := Except.ok.inj hsc2
        obtain rfl : e = e2 := Except.error.inj (hp.symm.trans hp2)
        exact absurd hg2 hg
    · rw [download_post_or_reel_eq_ok primary http url sc post hx hp]
      refine ⟨Or.inl rfl, fun u => ⟨fun h => absurd h (by simp), ?_⟩⟩
      rintro ⟨sc2, e2, hsc2, hp2, -, -⟩
      obtain rfl : sc = sc2 := Except.ok.inj hsc2
      exact Except.noConfusion (hp.symm.trans hp2)

/-- Witness for the amended C1: a qualifying failure message makes the
fallback GET go to exactly the embedded URL. -/
theorem C1_witness :
    (download_post_or_reel
        (fun _ => Except.error "Oops shortcode https://x.test/graphql/query?doc=1 fail")
        (fun _ => Except.error "boom") "https://www.instagram.com/p/ABC").snd =
      ["https://x.test/graphql/query?doc=1"] := by
  have h := C1_amended_theorem
      (fun _ => Except.error "Oops shortcode https://x.test/graphql/query?doc=1 fail")
      (fun _ => Except.error "boom") "https://www.instagram.com/p/ABC"
  exact (h.2 "https://x.test/graphql/query?doc=1").mpr
    ⟨"ABC", "Oops shortcode https://x.test/graphql/query?doc=1 fail", by decide, rfl,
      by decide, by decide⟩

/-- Claim C2 as stated fails: the fallback recognizes only the
`shortcode_media` key.  With equivalent node contents under
`xdt_shortcode_media` it yields no result, while under `shortcode_media` it
yields one. -/
theorem C2_counterexample :
    (fetch_via_graphql
        (fun _ => Except.ok
          ⟨some ⟨none, some ⟨⟨[⟨"a", 100, 100⟩], none, false⟩, none, some "bob"⟩⟩⟩)
        "https://www.instagram.com/p/ABC" "x https://x.test/graphql/query?d=1").fst =
      Except.ok none ∧
    (fetch_via_graphql
        (fun _ => Except.ok
          ⟨some ⟨some ⟨⟨[⟨"a", 100, 100⟩], none, false⟩, none, some "bob"⟩, none⟩⟩)
        "https://www.instagram.com/p/ABC" "x https://x.test/graphql/query?d=1").fst ≠
      Except.ok none := by
  decide

/-- Claim C2 amended: the fallback reads only `data.shortcode_media` — when
that key holds the node the result is its normalization (tagged "via
GraphQL"), and when it is absent the fallback yields no result, regardless of
`xdt_shortcode_media`. -/
theorem C2_amended_theorem (http : HttpOracle) (url e gu sc : String)
    (body : GraphQlResponse) (d : GraphQlData)
    (hs : searchGraphqlUrl e = some gu) (hx : extract_shortcode url = Except.ok sc)
    (hh : http gu = Except.ok body) (hd : body.data? = some d) :
    (d.shortcode_media = none → (fetch_via_graphql http url e).fst = Except.ok none) ∧
    (∀ sm, d.shortcode_media = some sm →
      (fetch_via_graphql http url e).fst =
        Except.ok (some (process_post_data sm (sc ++ " via GraphQL")))) := by
  constructor
  · intro hm
    simp [fetch_via_graphql, hs, hx, hh, hd, hm]
  · intro sm hm
    simp [fetch_via_graphql, hs, hx, hh, hd, hm]

/-- Witness for the amended C2: a response carrying the node only under
`xdt_shortcode_media` yields no result. -/
theorem C2_witness :
    (fetch_via_graphql (fun _ => Except.ok ⟨some ⟨none, some carouselPost⟩⟩)
        "https://www.instagram.com/p/ABC" "x https://x.test/graphql/query?d=1").fst =
      Except.ok none :=
  (C2_amended_theorem _ "https://www.instagram.com/p/ABC" "x https://x.test/graphql/query?d=1"
      "https://x.test/graphql/query?d=1" "ABC" ⟨some ⟨none, some carouselPost⟩⟩
      ⟨none, some carouselPost⟩ (by decide) (by decide) rfl rfl).1 rfl

/-- Claim C6 as stated fails only in the prefix: the fallback-failure message
is "Failed GraphQL fallback: <detail>", not "Failed fallback: <detail>". -/
theorem C6_counterexample :
    (download_post_or_reel
        (fun _ => Except.error "err shortcode https://x.test/graphql/query?v=1 end")
        (fun _ => Except.error "boom") "https://www.instagram.com/p/ABC").fst.message =
      "Failed GraphQL fallback: boom" ∧
    (download_post_or_reel
        (fun _ => Except.error "err shortcode https://x.test/graphql/query?v=1 end")
        (fun _ => Except.error "boom") "https://www.instagram.com/p/ABC").fst.message ≠
      "Failed fallback: boom" := by
  decide

/-- Claim C6 amended: when a qualifying primary failure triggers the
fallback, an exception during the fallback yields the error envelope
"Failed GraphQL fallback: <detail>" (a prefix distinguishing fallback from
primary failure); when the fallback yields no result — embedded URL absent,
`data` field missing, or `shortcode_media` key missing — the caller returns
the original primary error message unchanged. -/
theorem C6_amended_theorem (primary : PrimaryOracle) (http : HttpOracle) (url sc e : String)
    (hx : extract_shortcode url = Except.ok sc)
    (hp : primary sc = Except.error e)
    (hg : (strContains "graphql/query" e && strContains "shortcode" e) = true) :
    (∀ inner log, fetch_via_graphql http url e = (Except.error inner, log) →
      (download_post_or_reel primary http url).fst =
        { status := "error", message := "Failed GraphQL fallback: " ++ inner,
          username := none, data := [] }) ∧
    (∀ log, fetch_via_graphql http url e = (Except.ok none, log) →
      (download_post_or_reel primary http url).fst = errorEnvelope e) ∧
    (∀ gu body, searchGraphqlUrl e = some gu → http gu = Except.ok body →
      (body.data? = none ∨ ∃ d, body.data? = some d ∧ d.shortcode_media = none) →
      (fetch_via_graphql http url e).fst = Except.ok none) := by
  have hmain := download_post_or_reel_eq_prerr primary http url sc e hx hp
  refine ⟨?_, ?_, ?_⟩
  · intro inner log hf
    rw [hmain, handleErr_eq_inner_err http url e inner log hg hf]
  · intro log hf
    rw [hmain, handleErr_eq_no_result http url e log hg hf]
  · intro gu body hs hh hnone
    rcases hnone with hn | ⟨d, hd2, hm⟩
    · simp [fetch_via_graphql, hs, hx, hh, hn]
    · simp [fetch_via_graphql, hs, hx, hh, hd2, hm]

/-- Witness for the amended C6: a network failure during the fallback GET
surfaces with the "Failed GraphQL fallback: " prefix. -/
theorem C6_witness :
    (download_post_or_reel
        (fun _ => Except.error "err shortcode https://x.test/graphql/query?v=1 end")
        (fun _ => Except.error "netfail") "https://www.instagram.com/p/XY").fst =
      { status := "error", message := "Failed GraphQL fallback: netfail",
        username := none, data := [] } := by
  have h := C6_amended_theorem
      (fun _ => Except.error "err shortcode https://x.test/graphql/query?v=1 end")
      (fun _ => Except.error "netfail") "https://www.instagram.com/p/XY" "XY"
      "err shortcode https://x.test/graphql/query?v=1 end" (by decide) rfl (by decide)
  exact h.1 "netfail" ["https://x.test/graphql/query?v=1"] (by decide)

/-- Claim C8: the orchestrator selects exactly one of four branches in
priority order — post/reel when the raw URL contains `instagram.com/p/` or
`instagram.com/reel/`; otherwise the stories branch with its fixed error
message; otherwise the profile branch (any non-empty first path segment after
`instagram.com/`) with its fixed error message; otherwise the
"Unsupported URL format" error — with branch 1 tested on the un-normalized
URL and branches 2 and 3 on the query-stripped URL. -/
theorem C8_theorem (primary : PrimaryOracle) (http : HttpOracle) (url : String) :
    ((strContains "instagram.com/p/" url || strContains "instagram.com/reel/" url) = true →
      download_instagram_content primary http url =
        download_post_or_reel primary http (parse_url url)) ∧
    ((strContains "instagram.com/p/" url || strContains "instagram.com/reel/" url) = false →
      strContains "instagram.com/stories/" (parse_url url) = true →
      download_instagram_content primary http url =
        (errorEnvelope "Stories download is not supported", [])) ∧
    ((strContains "instagram.com/p/" url || strContains "instagram.com/reel/" url) = false →
      strContains "instagram.com/stories/" (parse_url url) = false →
      (searchUserSeg (parse_url url)).isSome = true →
      download_instagram_content primary http url =
        (errorEnvelope "Profile download is not supported", [])) ∧
    ((strContains "instagram.com/p/" url || strContains "instagram.com/reel/" url) = false →
      strContains "instagram.com/stories/" (parse_url url) = false →
      (searchUserSeg (parse_url url)).isSome = false →
      download_instagram_content primary http url =
        (errorEnvelope "Unsupported URL format", [])) := by
  refine ⟨?_, ?_, ?_, ?_⟩
  · intro h1
    simp only [download_instagram_content]
    rw [if_pos h1]
  · intro h1 h2
    simp only [download_instagram_content]
    rw [if_neg (by simp [h1]), if_pos h2]
    rfl
  · intro h1 h2 h3
    simp only [download_instagram_content]
    rw [if_neg (by simp [h1]), if_neg (by simp [h2]), if_pos h3]
    rfl
  · intro h1 h2 h3
    simp only [download_instagram_content]
    rw [if_neg (by simp [h1]), if_neg (by simp [h2]), if_neg (by simp [h3])]

/-- Witness for C8 at a stories URL and at a non-Instagram URL. -/
theorem C8_witness :
    download_instagram_content (fun _ => Except.error "x") (fun _ => Except.error "x")
        "https://www.instagram.com/stories/bob?z=1" =
      (errorEnvelope "Stories download is not supported", []) ∧
    download_instagram_content (fun _ => Except.error "x") (fun _ => Except.error "x")
        "https://example.org" =
      (errorEnvelope "Unsupported URL format", []) := by
  constructor
  · exact (C8_theorem _ _ _).2.1 (by decide) (by decide)
  · exact (C8_theorem _ _ _).2.2.2 (by decide) (by decide) (by decide)

/-- Claim C9: for every URL and every behavior of the primary provider and
the fallback endpoint, the entry point returns a structured envelope whose
status is `"success"` or `"error"`; in this embedding every branch is a total
function into `Result`, so no exception reaches the caller. -/
theorem C9_theorem (primary : PrimaryOracle) (http : HttpOracle) (url : String) :
    (download_instagram_content primary http url).fst.status = "success" ∨
    (download_instagram_content primary http url).fst.status = "error" := by
  rcases download_instagram_content_shape primary http url with h | h
  · exact Or.inr h.1
  · exact Or.inl h.1

/-- Claim C10: every error envelope returned by the resolution operations has
an empty `data` list and no `username` field; a `username` is present only in
success envelopes. -/
theorem C10_theorem (primary : PrimaryOracle) (http : HttpOracle) (url : String) :
    ((download_instagram_content primary http url).fst.status = "error" →
      (download_instagram_content primary http url).fst.data = [] ∧
      (download_instagram_content primary http url).fst.username = none) ∧
    ((download_instagram_content primary http url).fst.username ≠ none →
      (download_instagram_content primary http url).fst.status = "success") := by
  rcases download_instagram_content_shape primary http url with ⟨hs, hu, hd⟩ | ⟨hs, u, hu⟩
  · exact ⟨fun _ => ⟨hd, hu⟩, fun hne => absurd hu hne⟩
  · constructor
    · intro herr
      rw [hs] at herr
      exact absurd herr (by decide)
    · intro h2
      exact hs

/-- Witness for C10: an error envelope with empty data and no username, and
a success envelope carrying a username. -/
theorem C10_witness :
    ((download_instagram_content (fun _ => Except.error "x") (fun _ => Except.error "x")
        "nope").fst.data = [] ∧
      (download_instagram_content (fun _ => Except.error "x") (fun _ => Except.error "x")
        "nope").fst.username = none) ∧
    (download_instagram_content (fun _ => Except.ok carouselPost) (fun _ => Except.error "x")
        "https://www.instagram.com/p/ABC").fst.status = "success" := by
  constructor
  · exact (C10_theorem _ _ _).1 (by decide)
  · exact (C10_theorem _ _ _).2 (by decide)

end Instagram
